import Mathlib

/-!
Shallow embedding of the `pahole-macro` crate (src/lib.rs) and, for the one
claim about the layout calculator that the repository does not implement, a
definition modelled from the specification.  Rust `HashMap`s are modelled as
association lists whose `insert` replaces an existing binding for the key,
fixing insertion order (the maps in the source are only ever inserted into
and debug-printed, so the order is an artefact of the model, not of the
code).  Rust panics are modelled as `Option`/default values where noted.
-/

namespace Pahole

/-- Opaque carrier standing for `syn::Type`.  The repository stores values of
this type but never inspects them, so a single-field wrapper suffices. -/
structure SynType where
  name : String
deriving DecidableEq, Repr

/-- Embedding of `syn::PathSegment`: an identifier plus optional path
arguments.  The repository only ever constructs segments from a bare
identifier (`ident.into()`), which has no arguments. -/
structure PathSegment where
  ident : String
  arguments : Option SynType
deriving DecidableEq, Repr

/-- Embedding of `syn::Path`: `leading_colon` is `true` when the Rust
`Option<PathSep>` is `Some`. -/
structure SynPath where
  leading_colon : Bool
  segments : List PathSegment
deriving DecidableEq, Repr

/-- Embedding of `syn::QSelf`; the repository never looks inside a `QSelf`,
only at its presence, so an opaque carrier suffices. -/
structure SynQSelf where
  ty : SynType
deriving DecidableEq, Repr

/-- Embedding of `syn::TypePath`: an optional qualified-self plus a path. -/
structure SynTypePath where
  qself : Option SynQSelf
  path : SynPath
deriving DecidableEq, Repr

namespace parsed

/-- Embedding of `parsed::TypePath`, the newtype wrapper
`pub struct TypePath(pub syn::TypePath)` with derived structural
equality and hashing. -/
structure TypePath where
  toSyn : SynTypePath
deriving DecidableEq, Repr

/-- Embedding of `parsed::TypePath::new`: empty path, no qualified self, no
leading colon. -/
def TypePath.new : TypePath :=
  ⟨⟨none, ⟨false, []⟩⟩⟩

/-- Embedding of `parsed::TypePath::is_absolute`.  The Rust function asserts
`qself.is_none()` whenever there is no leading colon; `none` models the
assertion failure (panic), `some b` models a normal return of `b`. -/
def TypePath.is_absolute (p : TypePath) : Option Bool :=
  if p.toSyn.path.leading_colon = false then
    if p.toSyn.qself = none then some false else none
  else
    some true

/-- Embedding of `parsed::TypePath::push`: appends one segment to the path. -/
def TypePath.push (p : TypePath) (item : PathSegment) : TypePath :=
  ⟨⟨p.toSyn.qself, ⟨p.toSyn.path.leading_colon, p.toSyn.path.segments ++ [item]⟩⟩⟩

/-- Embedding of `parsed::Struct`: unit, tuple, or named-field struct shape. -/
inductive Struct where
  | unit
  | tuple (tys : List SynType)
  | struct (fields : List (String × SynType))
deriving DecidableEq, Repr

/-- Embedding of `parsed::Item`: the abstract definitions the ingestion step
stores.  Note that the enum variants carry no discriminant slot, exactly as
in the source (`Enum(Vec<(syn::Ident, Struct)>)`). -/
inductive Item where
  | struct (s : Struct)
  | enum (variants : List (String × Struct))
  | union (fields : List (String × SynType))
  | typeAlias (ty : SynType)
deriving DecidableEq, Repr

end parsed

/-- Model of a 64-bit hash value for a string, used to model the derived
`Hash` implementation on `parsed::TypePath`.  Any concrete function works for
the congruence property; this one folds the characters. -/
def hashStr (s : String) : Nat :=
  s.foldl (fun h c => (h * 31 + c.toNat) % 2 ^ 64) 5381

/-- Model of hashing an `Option` of an already-hashed component, mirroring
how a derived `Hash` feeds a discriminant plus the payload. -/
def hashOpt (f : α → Nat) : Option α → Nat
  | none => 0
  | some a => (1 + 31 * f a) % 2 ^ 64

/-- Hash of a path segment: identifier combined with the arguments slot. -/
def PathSegment.hash (s : PathSegment) : Nat :=
  (hashStr s.ident * 31 + hashOpt (fun t => hashStr t.name) s.arguments) % 2 ^ 64

/-- Model of the derived `Hash` on `parsed::TypePath`: combines the qualified
self, the leading colon, and every segment in order. -/
def parsed.TypePath.hash (p : parsed.TypePath) : Nat :=
  let hq := hashOpt (fun q => hashStr q.ty.name) p.toSyn.qself
  let hl := if p.toSyn.path.leading_colon then 1 else 0
  p.toSyn.path.segments.foldl (fun h s => (h * 31 + s.hash) % 2 ^ 64) ((hq * 2 + hl) % 2 ^ 64)

/-- Embedding of `syn::Field`: optional identifier plus a type.  Named
fields always carry `some` identifier in well-formed `syn` values. -/
structure Field where
  ident : Option String
  ty : SynType
deriving DecidableEq, Repr

/-- Embedding of `syn::Fields`: named, unnamed (tuple), or unit field list. -/
inductive Fields where
  | named (fields : List Field)
  | unnamed (fields : List Field)
  | unit
deriving DecidableEq, Repr

/-- Model of `Option::unwrap` on an identifier; `syn` guarantees the
identifier of a named field is present, so the default is never reached on
inputs the front-end produces. -/
def unwrapIdent (o : Option String) : String :=
  o.getD ""

/-- Embedding of `parse_struct_fields`: named fields become a `Struct` of
(name, type) pairs, unnamed fields a `Tuple` of types, and a unit field list
the `Unit` shape, each preserving declaration order. -/
def parse_struct_fields : Fields → parsed.Struct
  | .named x => .struct (x.map fun y => (unwrapIdent y.ident, y.ty))
  | .unnamed x => .tuple (x.map fun y => y.ty)
  | .unit => .unit

/-- Embedding of `syn::Variant`: name, field list, and optional explicit
discriminant expression (modelled as an integer value). -/
structure Variant where
  ident : String
  fields : Fields
  discriminant : Option Int
deriving DecidableEq, Repr

/-- Embedding of the subset of `syn::Item` the macro matches on: modules
(with optional inline content), enums, structs, type aliases, unions, and a
catch-all for every other item kind (functions, impls, ...). -/
inductive Item where
  | mod (ident : String) (content : Option (List Item))
  | enum (ident : String) (variants : List Variant)
  | struct (ident : String) (fields : Fields)
  | typeAlias (ident : String) (ty : SynType)
  | union (ident : String) (fields : List Field)
  | other (description : String)

/-- Errors are modelled by their message, as produced by
`syn::parse::Error::new_spanned`. -/
abbrev Error := String

/-- Message of the error returned for a module whose body lives in another
file. -/
def modOtherFileMsg : Error :=
  "pahole does not currently support `mod`s implemented in other files"

/-- Message of the error returned for unsupported item kinds. -/
def unsupportedMsg : Error :=
  "pahole can currently only process `mod`s, `enum`s, `struct`s, `type`s, and `union`s."

/-- Association-list model of `HashMap::insert`: replaces the binding for an
existing key, otherwise appends. -/
def mapInsert [DecidableEq κ] (m : List (κ × α)) (k : κ) (v : α) : List (κ × α) :=
  match m with
  | [] => [(k, v)]
  | (k', v') :: rest => if k' = k then (k, v) :: rest else (k', v') :: mapInsert rest k v

/-- Association-list model of `HashMap::get`. -/
def mapLookup [DecidableEq κ] (m : List (κ × α)) (k : κ) : Option α :=
  match m with
  | [] => none
  | (k', v') :: rest => if k' = k then some v' else mapLookup rest k

/-- Embedding of `std::alloc::Layout`: a size and an alignment in bytes. -/
structure Layout where
  size : Nat
  align : Nat
deriving DecidableEq, Repr

/-- Embedding of the `Data` struct: the map of user definitions awaiting
layout computation and the map of already-laid-out (builtin) types. -/
structure Data where
  unprocessed_items : List (parsed.TypePath × parsed.Item)
  processed_items : List (parsed.TypePath × Layout)
deriving DecidableEq, Repr

/-- TypePath of a builtin primitive as produced by `parse_quote!`: a single
argument-free segment, no qualified self, no leading colon. -/
def builtinPath (name : String) : parsed.TypePath :=
  ⟨⟨none, ⟨false, [⟨name, none⟩]⟩⟩⟩

/-- The fixed builtin table expanded by `impl_add_builtins!`, with
`Layout::new::<T>()` evaluated for the x86-64 Linux target the crate is
compiled on: pointer width 8 bytes, and 16-byte alignment for the 128-bit
integers. -/
def builtinTable : List (String × Layout) :=
  [("u8", ⟨1, 1⟩), ("u16", ⟨2, 2⟩), ("u32", ⟨4, 4⟩), ("u64", ⟨8, 8⟩),
   ("u128", ⟨16, 16⟩), ("usize", ⟨8, 8⟩), ("i8", ⟨1, 1⟩), ("i16", ⟨2, 2⟩),
   ("i32", ⟨4, 4⟩), ("i64", ⟨8, 8⟩), ("i128", ⟨16, 16⟩), ("isize", ⟨8, 8⟩)]

/-- Embedding of `Data::add_builtins`, the expansion of
`impl_add_builtins! self; u8 u16 u32 u64 u128 usize i8 i16 i32 i64 i128 isize`:
one insertion into `processed_items` per builtin. -/
def Data.add_builtins (d : Data) : Data :=
  builtinTable.foldl
    (fun d' e => { d' with processed_items := mapInsert d'.processed_items (builtinPath e.1) e.2 })
    d

/-- Embedding of `Data::new`: both maps start empty, then the builtins are
seeded. -/
def Data.new : Data :=
  Data.add_builtins ⟨[], []⟩

mutual

/-- Embedding of `Data::add_item`.  A module with inline content recurses
into its items under the extended path; enums, structs, type aliases and
unions are translated and inserted under the parent path extended with their
own identifier; a module defined in another file and every other item kind
produce an error. -/
def Data.add_item (d : Data) (parent_path : parsed.TypePath) (item : Item) :
    Except Error Data :=
  match item with
  | .mod ident content =>
    match content with
    | some items =>
      let path := parent_path.push ⟨ident, none⟩
      Data.addItemList d path items
    | none => .error modOtherFileMsg
  | .enum ident variants =>
    let parsed_item : parsed.Item :=
      .enum (variants.map fun y => (y.ident, parse_struct_fields y.fields))
    .ok { d with unprocessed_items :=
            mapInsert d.unprocessed_items (parent_path.push ⟨ident, none⟩) parsed_item }
  | .struct ident fields =>
    let parsed_item : parsed.Item := .struct (parse_struct_fields fields)
    .ok { d with unprocessed_items :=
            mapInsert d.unprocessed_items (parent_path.push ⟨ident, none⟩) parsed_item }
  | .typeAlias ident ty =>
    let parsed_item : parsed.Item := .typeAlias ty
    .ok { d with unprocessed_items :=
            mapInsert d.unprocessed_items (parent_path.push ⟨ident, none⟩) parsed_item }
  | .union ident fields =>
    let parsed_item : parsed.Item := .union (fields.map fun y => (unwrapIdent y.ident, y.ty))
    .ok { d with unprocessed_items :=
            mapInsert d.unprocessed_items (parent_path.push ⟨ident, none⟩) parsed_item }
  | .other _ => .error unsupportedMsg

/-- Embedding of the `for sub_item in items` loop inside the module branch of
`Data::add_item`: items are processed left to right and the first error
aborts the loop. -/
def Data.addItemList (d : Data) (path : parsed.TypePath) (items : List Item) :
    Except Error Data :=
  match items with
  | [] => .ok d
  | i :: rest =>
    match Data.add_item d path i with
    | .ok d' => Data.addItemList d' path rest
    | .error e => .error e

end

/-- Boolean success test for an ingestion result. -/
def isOkB : Except Error Data → Bool
  | .ok _ => true
  | .error _ => false

mutual

/-- Characterization of the inputs `Data::add_item` rejects, read off the
match in the source: a module without inline content, any item kind outside
the five matched ones, and, recursively, an inline module one of whose items
is rejected. -/
def rejects : Item → Bool
  | .mod _ none => true
  | .mod _ (some items) => rejectsList items
  | .other _ => true
  | .enum _ _ => false
  | .struct _ _ => false
  | .typeAlias _ _ => false
  | .union _ _ => false

/-- List version of `rejects`: true when some item of the list is rejected. -/
def rejectsList : List Item → Bool
  | [] => false
  | i :: rest => rejects i || rejectsList rest

end

/-- Kind test written after the claim wording: the supported set is a module
with inline content, an enum, a struct, a type alias, or a union; everything
else (a module whose body is in another file, functions, impls, ...) is
outside it.  The test looks only at the item itself, not inside module
content. -/
def supportedKind : Item → Bool
  | .mod _ (some _) => true
  | .enum _ _ => true
  | .struct _ _ => true
  | .typeAlias _ _ => true
  | .union _ _ => true
  | .mod _ none => false
  | .other _ => false

/-- Translation a non-module supported item undergoes in `Data::add_item`:
its own identifier together with the stored `parsed::Item`; `none` for
modules and unsupported kinds. -/
def leafTranslate : Item → Option (String × parsed.Item)
  | .enum ident variants =>
    some (ident, .enum (variants.map fun y => (y.ident, parse_struct_fields y.fields)))
  | .struct ident fields => some (ident, .struct (parse_struct_fields fields))
  | .typeAlias ident ty => some (ident, .typeAlias ty)
  | .union ident fields => some (ident, .union (fields.map fun y => (unwrapIdent y.ident, y.ty)))
  | .mod _ _ => none
  | .other _ => none

/-- Wraps an item in a chain of single-item inline modules, outermost first:
`nestMods [m1, m2] it` is `mod m1 { mod m2 { it } }`. -/
def nestMods : List String → Item → Item
  | [], it => it
  | m :: ms, it => .mod m (some [nestMods ms it])

/-- Extends a path by one argument-free segment per name, in order. -/
def pushNames (p : parsed.TypePath) (names : List String) : parsed.TypePath :=
  names.foldl (fun q n => q.push ⟨n, none⟩) p

/-- Model of `proc_macro::TokenStream` as an opaque token list; the macro
only clones it, hands it to the parser, and returns it. -/
abbrev TokenStream := List String

/-- Token stream produced by `Error::to_compile_error`. -/
def toCompileError (e : Error) : TokenStream :=
  ["compile_error!", e]

/-- Embedding of the `pahole` attribute entry point.  Parsing by
`parse_macro_input!` is external library behaviour, so it is passed in as a
function from the token stream to either an error (whose compile-error
expansion `parse_macro_input!` returns) or a `syn::Item`.  The `dbg!` call
only writes to stderr and is dropped. -/
def pahole (parseItem : TokenStream → Except Error Item) (item : TokenStream) :
    TokenStream :=
  let item_cloned := item
  match parseItem item with
  | .error err => toCompileError err
  | .ok syn_item =>
    match Data.add_item Data.new parsed.TypePath.new syn_item with
    | .ok _ => item_cloned
    | .error err => toCompileError err

/-- Modelled from the spec: a field input to the Record layout rule of the
LayoutCalculator (§4.3), which the repository does not implement — src/ only
contains the ingestion front-end.  A field contributes its size and its
alignment. -/
structure FieldInput where
  size : Nat
  align : Nat
deriving DecidableEq, Repr

/-- Modelled from the spec: a resolved field of a Record layout — offset and
size. -/
structure FieldLayout where
  offset : Nat
  size : Nat
deriving DecidableEq, Repr

/-- Modelled from the spec: an explicit padding gap — offset and length. -/
structure PaddingSegment where
  offset : Nat
  length : Nat
deriving DecidableEq, Repr

/-- Modelled from the spec: a resolved Record layout — total size, alignment,
fields in declared order, and every padding segment. -/
structure RecordLayout where
  size : Nat
  align : Nat
  fields : List FieldLayout
  padding : List PaddingSegment
deriving DecidableEq, Repr

/-- Modelled from the spec: the amount of padding before a field of alignment
`a` when the cursor stands at `cursor`, i.e. `(-cursor) mod a`. -/
def padBefore (cursor a : Nat) : Nat :=
  (a - cursor % a) % a

/-- Modelled from the spec: rounding `n` up to the next multiple of `a`. -/
def roundUp (n a : Nat) : Nat :=
  n + padBefore n a

/-- Modelled from the spec: the per-field loop of the Record rule.  Starting
from `cursor`, each field is preceded by a padding segment of length
`(-cursor) mod a` when that is nonzero, placed at the padded cursor, and the
cursor advances past the field.  Returns the final cursor, the field layouts
and the inter-field padding segments. -/
def layoutFieldsAux (cursor : Nat) :
    List FieldInput → Nat × List FieldLayout × List PaddingSegment
  | [] => (cursor, [], [])
  | f :: rest =>
    let pad := padBefore cursor f.align
    let off := cursor + pad
    let r := layoutFieldsAux (off + f.size) rest
    (r.1, ⟨off, f.size⟩ :: r.2.1,
      (if pad = 0 then [] else [⟨cursor, pad⟩]) ++ r.2.2)

/-- Modelled from the spec: the Record rule of the LayoutCalculator (§4.3).
Fields are processed strictly in declared order from cursor 0; the overall
alignment is the maximum field alignment (1 if there are no fields); the size
rounds the final cursor up to that alignment, and a trailing padding segment
is emitted when the rounding added bytes. -/
def layoutRecord (fields : List FieldInput) : RecordLayout :=
  let r := layoutFieldsAux 0 fields
  let align := (fields.map FieldInput.align).foldl max 1
  let size := roundUp r.1 align
  let trailing : List PaddingSegment :=
    if r.1 < size then [⟨r.1, size - r.1⟩] else []
  ⟨size, align, r.2.1, r.2.2 ++ trailing⟩

/-- Concrete catalog holding one user definition named `A`, as produced by a
first registration; used as the already-present setting below. -/
def dataA : Data :=
  { unprocessed_items := [(builtinPath "A", .struct .unit)],
    processed_items := Data.new.processed_items }

/-- Concrete TypePath with a qualified self next to an otherwise identical
rooted single-segment path. -/
def qselfPath : parsed.TypePath :=
  ⟨⟨some ⟨⟨"T"⟩⟩, ⟨true, [⟨"A", none⟩]⟩⟩⟩

/-- Concrete TypePath without a qualified self, same rootedness and segments
as `qselfPath`. -/
def plainPath : parsed.TypePath :=
  ⟨⟨none, ⟨true, [⟨"A", none⟩]⟩⟩⟩

mutual

/-- An ingestion call succeeds exactly on the items `rejects` rules out:
proved by the joint induction mirroring `Data::add_item` and its module
loop. -/
theorem add_item_isOk (d : Data) (p : parsed.TypePath) (item : Item) :
    isOkB (Data.add_item d p item) = ! rejects item :=
  match item with
  | .mod ident (some items) => by
    simpa [Data.add_item, rejects] using addItemList_isOk d (p.push ⟨ident, none⟩) items
  | .mod ident none => by simp [Data.add_item, rejects, isOkB]
  | .enum ident variants => by simp [Data.add_item, rejects, isOkB]
  | .struct ident fields => by simp [Data.add_item, rejects, isOkB]
  | .typeAlias ident ty => by simp [Data.add_item, rejects, isOkB]
  | .union ident fields => by simp [Data.add_item, rejects, isOkB]
  | .other msg => by simp [Data.add_item, rejects, isOkB]

/-- The module loop succeeds exactly when no listed item is rejected. -/
theorem addItemList_isOk (d : Data) (p : parsed.TypePath) (items : List Item) :
    isOkB (Data.addItemList d p items) = ! rejectsList items :=
  match items with
  | [] => by simp [Data.addItemList, rejectsList, isOkB]
  | i :: rest => by
    have hi := add_item_isOk d p i
    cases h : Data.add_item d p i with
    | ok d' =>
      have : rejects i = false := by
        rw [h] at hi
        simpa [isOkB] using hi.symm
      simp [Data.addItemList, h, rejectsList, this, addItemList_isOk d' p rest]
    | error e =>
      have : rejects i = true := by
        rw [h] at hi
        simpa [isOkB] using hi.symm
      simp [Data.addItemList, h, rejectsList, this, isOkB]

end

mutual

/-- A successful ingestion never touches the processed (builtin) map. -/
theorem add_item_processed (d : Data) (p : parsed.TypePath) (item : Item)
    (d' : Data) (h : Data.add_item d p item = .ok d') :
    d'.processed_items = d.processed_items :=
  match item with
  | .mod ident (some items) => by
    rw [Data.add_item] at h
    exact addItemList_processed d (p.push ⟨ident, none⟩) items d' h
  | .mod ident none => by simp [Data.add_item] at h
  | .enum ident variants => by
    rw [Data.add_item] at h
    cases h
    rfl
  | .struct ident fields => by
    rw [Data.add_item] at h
    cases h
    rfl
  | .typeAlias ident ty => by
    rw [Data.add_item] at h
    cases h
    rfl
  | .union ident fields => by
    rw [Data.add_item] at h
    cases h
    rfl
  | .other msg => by simp [Data.add_item] at h

/-- A successful module loop never touches the processed (builtin) map. -/
theorem addItemList_processed (d : Data) (p : parsed.TypePath)
    (items : List Item) (d' : Data) (h : Data.addItemList d p items = .ok d') :
    d'.processed_items = d.processed_items :=
  match items with
  | [] => by
    rw [Data.addItemList] at h
    cases h
    rfl
  | i :: rest => by
    rw [Data.addItemList] at h
    cases hi : Data.add_item d p i with
    | ok dmid =>
      rw [hi] at h
      calc d'.processed_items = dmid.processed_items :=
            addItemList_processed dmid p rest d' h
        _ = d.processed_items := add_item_processed d p i dmid hi
    | error e => rw [hi] at h; cases h

end

/-- On a supported non-module item, ingestion inserts the translated
definition under the parent path extended with the item's identifier. -/
theorem add_item_leaf (d : Data) (p : parsed.TypePath) (item : Item)
    (i : String) (pit : parsed.Item) (h : leafTranslate item = some (i, pit)) :
    Data.add_item d p item =
      .ok { d with unprocessed_items :=
              mapInsert d.unprocessed_items (p.push ⟨i, none⟩) pit } := by
  cases item <;> simp [leafTranslate] at h
  all_goals obtain ⟨rfl, rfl⟩ := h
  all_goals rfl

/-- Looking up a key right after inserting it yields the inserted value. -/
theorem mapLookup_mapInsert [DecidableEq κ] (m : List (κ × α)) (k : κ) (v : α) :
    mapLookup (mapInsert m k v) k = some v := by
  induction m with
  | nil => simp [mapInsert, mapLookup]
  | cons e rest ih =>
    by_cases he : e.1 = k
    · simp [mapInsert, mapLookup, he]
    · simp [mapInsert, mapLookup, he, ih]

/-- C1 fails on the code: registering a second definition under a TypeId
that is already present does not fail and does not leave the stored
definitions unchanged.  With `A` already registered, registering `A` again
returns `Ok` and replaces the stored definition; registering the builtin name
`usize` as a user struct also returns `Ok`. -/
theorem C1_counterexample :
    Data.add_item Data.new parsed.TypePath.new (.struct "A" .unit) = .ok dataA ∧
    Data.add_item dataA parsed.TypePath.new (.struct "A" (.unnamed [⟨none, ⟨"u8"⟩⟩])) =
      .ok { dataA with unprocessed_items :=
              [(builtinPath "A", .struct (.tuple [⟨"u8"⟩]))] } ∧
    Data.add_item Data.new parsed.TypePath.new (.struct "usize" .unit) =
      .ok { Data.new with unprocessed_items :=
              [(builtinPath "usize", .struct .unit)] } :=
  ⟨rfl, rfl, rfl⟩

/-- C1 amended: registering a definition under a TypeId that is already
present as a user type succeeds, stores the new definition in place of the
old one in the user-definition map, and leaves the builtin map unchanged
(the returned catalog keeps `processed_items` intact by construction). -/
theorem C1_duplicate_overwrites (d : Data) (p : parsed.TypePath) (item : Item)
    (i : String) (pit old : parsed.Item)
    (ht : leafTranslate item = some (i, pit))
    (_hpresent : mapLookup d.unprocessed_items (p.push ⟨i, none⟩) = some old) :
    Data.add_item d p item =
      .ok { d with unprocessed_items :=
              mapInsert d.unprocessed_items (p.push ⟨i, none⟩) pit } ∧
    mapLookup (mapInsert d.unprocessed_items (p.push ⟨i, none⟩) pit)
        (p.push ⟨i, none⟩) = some pit :=
  ⟨add_item_leaf d p item i pit ht,
   mapLookup_mapInsert d.unprocessed_items (p.push ⟨i, none⟩) pit⟩

/-- Witness for C1 amended at a concrete catalog already containing `A`. -/
theorem C1_witness :
    Data.add_item dataA parsed.TypePath.new (.struct "A" (.unnamed [⟨none, ⟨"u8"⟩⟩])) =
      .ok ⟨mapInsert dataA.unprocessed_items
             (parsed.TypePath.new.push ⟨"A", none⟩) (.struct (.tuple [⟨"u8"⟩])),
           dataA.processed_items⟩ ∧
    mapLookup (mapInsert dataA.unprocessed_items
          (parsed.TypePath.new.push ⟨"A", none⟩) (.struct (.tuple [⟨"u8"⟩])))
        (parsed.TypePath.new.push ⟨"A", none⟩) = some (.struct (.tuple [⟨"u8"⟩])) :=
  C1_duplicate_overwrites dataA parsed.TypePath.new
    (.struct "A" (.unnamed [⟨none, ⟨"u8"⟩⟩])) "A"
    (.struct (.tuple [⟨"u8"⟩])) (.struct .unit) rfl rfl

/-- C2 fails on the code: the stored definition of `enum F { A = 1 }` is
byte-for-byte the one stored for `enum F { A }` — the explicit discriminant
`A = 1` is dropped, not preserved; the value actually stored has no
discriminant slot at all. -/
theorem C2_counterexample :
    Data.add_item Data.new parsed.TypePath.new (.enum "F" [⟨"A", .unit, some 1⟩]) =
      Data.add_item Data.new parsed.TypePath.new (.enum "F" [⟨"A", .unit, none⟩]) ∧
    Data.add_item Data.new parsed.TypePath.new (.enum "F" [⟨"A", .unit, some 1⟩]) =
      .ok { Data.new with unprocessed_items :=
              [(builtinPath "F", .enum [("A", .unit)])] } :=
  ⟨rfl, rfl⟩

/-- C2 amended: the stored SumType definition records each variant's name and
payload fields in declaration order, and discards any explicit discriminant:
the stored value only uses each variant's identifier and fields, and changing
every variant's discriminant arbitrarily leaves the ingestion result
unchanged. -/
theorem C2_enum_drops_discriminant (d : Data) (p : parsed.TypePath)
    (ident : String) (variants : List Variant) :
    Data.add_item d p (.enum ident variants) =
      .ok ⟨mapInsert d.unprocessed_items (p.push ⟨ident, none⟩)
             (.enum (variants.map fun y => (y.ident, parse_struct_fields y.fields))),
           d.processed_items⟩ ∧
    ∀ f : Variant → Option Int,
      Data.add_item d p
          (.enum ident (variants.map fun v => ⟨v.ident, v.fields, f v⟩)) =
        Data.add_item d p (.enum ident variants) := by
  refine ⟨rfl, fun f => ?_⟩
  have h : (variants.map fun v => Variant.mk v.ident v.fields (f v)).map
      (fun y => (y.ident, parse_struct_fields y.fields)) =
      variants.map fun y => (y.ident, parse_struct_fields y.fields) := by
    rw [List.map_map]
    rfl
  simp only [Data.add_item]
  rw [h]

/-- C3 fails on the code as stated: an inline module is in the supported set,
yet ingesting an inline module that contains a function returns an error. -/
theorem C3_counterexample :
    supportedKind (Item.mod "m" (some [Item.other "fn"])) = true ∧
    Data.add_item Data.new parsed.TypePath.new
        (Item.mod "m" (some [Item.other "fn"])) = .error unsupportedMsg :=
  ⟨rfl, rfl⟩

/-- C3 amended: ingestion of a single item returns an error exactly when the
item is rejected — it is a module whose body is in another file, an item kind
outside the supported set, or an inline module one of whose items is
(recursively) rejected; for any non-module item the rejected ones are exactly
the unsupported kinds. -/
theorem C3_errors_iff_rejected (d : Data) (p : parsed.TypePath) (item : Item) :
    isOkB (Data.add_item d p item) = ! rejects item ∧
    ∀ it : Item, (∀ i c, it ≠ Item.mod i c) → rejects it = ! supportedKind it := by
  refine ⟨add_item_isOk d p item, fun it hmod => ?_⟩
  cases it with
  | mod i c => exact absurd rfl (hmod i c)
  | enum i v => rfl
  | struct i f => rfl
  | typeAlias i t => rfl
  | union i f => rfl
  | other s => rfl

/-- Witness for C3 amended at a concrete unsupported item. -/
theorem C3_witness :
    isOkB (Data.add_item Data.new parsed.TypePath.new (Item.other "fn")) =
      ! rejects (Item.other "fn") ∧
    rejects (Item.other "fn") = ! supportedKind (Item.other "fn") :=
  ⟨(C3_errors_iff_rejected Data.new parsed.TypePath.new (Item.other "fn")).1,
   (C3_errors_iff_rejected Data.new parsed.TypePath.new (Item.other "fn")).2
     (Item.other "fn") (fun _ _ h => Item.noConfusion h)⟩

/-- C4: an item nested in a chain of inline modules is registered under the
parent path extended with each module's name in order and then the item's own
name; the statement covers arbitrary nesting depth, so the flattening is
recursive. -/
theorem C4_module_flattening (d : Data) (p : parsed.TypePath)
    (mods : List String) (item : Item) (i : String) (pit : parsed.Item)
    (h : leafTranslate item = some (i, pit)) :
    Data.add_item d p (nestMods mods item) =
      .ok { d with unprocessed_items :=
              mapInsert d.unprocessed_items (pushNames p (mods ++ [i])) pit } := by
  induction mods generalizing p with
  | nil =>
    have := add_item_leaf d p item i pit h
    simpa [nestMods, pushNames] using this
  | cons m ms ih =>
    have hrec := ih (p.push ⟨m, none⟩)
    simp only [nestMods, Data.add_item, Data.addItemList, hrec]
    have : pushNames (p.push ⟨m, none⟩) (ms ++ [i]) =
        pushNames p ((m :: ms) ++ [i]) := by
      simp [pushNames]
    rw [this]

/-- Witness for C4 at two levels of module nesting. -/
theorem C4_witness :
    Data.add_item Data.new parsed.TypePath.new
        (nestMods ["m", "n"] (.struct "A" .unit)) =
      .ok ⟨mapInsert Data.new.unprocessed_items
             (pushNames parsed.TypePath.new (["m", "n"] ++ ["A"])) (.struct .unit),
           Data.new.processed_items⟩ :=
  C4_module_flattening Data.new parsed.TypePath.new ["m", "n"]
    (.struct "A" .unit) "A" (.struct .unit) rfl

/-- C5: a fresh catalog seeds exactly the twelve builtin integer primitives
with their fixed layouts into the processed map, in table order, leaves the
user map empty, and no ingestion ever changes the processed map. -/
theorem C5_builtin_seeding :
    Data.new.processed_items = builtinTable.map (fun e => (builtinPath e.1, e.2)) ∧
    Data.new.unprocessed_items = [] ∧
    ∀ (d : Data) (p : parsed.TypePath) (item : Item) (d' : Data),
      Data.add_item d p item = .ok d' → d'.processed_items = d.processed_items :=
  ⟨rfl, rfl, add_item_processed⟩

/-- Witness for C5: ingesting a struct into a fresh catalog leaves the
builtin map unchanged. -/
theorem C5_witness :
    ({ unprocessed_items := [(builtinPath "A", .struct .unit)],
       processed_items := Data.new.processed_items } : Data).processed_items =
      Data.new.processed_items :=
  C5_builtin_seeding.2.2 Data.new parsed.TypePath.new (.struct "A" .unit)
    { unprocessed_items := [(builtinPath "A", .struct .unit)],
      processed_items := Data.new.processed_items } rfl

/-- Mapping named fields to (unwrapped name, type) pairs undoes building
them from pairs. -/
theorem named_roundtrip (pairs : List (String × SynType)) :
    ((pairs.map fun e => Field.mk (some e.1) e.2).map
        fun y => (unwrapIdent y.ident, y.ty)) = pairs := by
  induction pairs with
  | nil => rfl
  | cons e rest ih =>
    simp only [List.map_cons]
    rw [ih]
    rfl

/-- Projecting the type out of unnamed fields undoes building them from a
type list. -/
theorem unnamed_roundtrip (tys : List SynType) :
    ((tys.map fun t => Field.mk none t).map fun y => y.ty) = tys := by
  induction tys with
  | nil => rfl
  | cons t rest ih =>
    simp only [List.map_cons]
    rw [ih]

/-- C6: parsing preserves declared order and shape — named fields give a
Struct of (name, type) pairs in order, unnamed fields a Tuple of types in
order, and a unit field list the Unit shape. -/
theorem C6_field_shapes (pairs : List (String × SynType)) (tys : List SynType) :
    parse_struct_fields (.named (pairs.map fun e => ⟨some e.1, e.2⟩)) = .struct pairs ∧
    parse_struct_fields (.unnamed (tys.map fun t => ⟨none, t⟩)) = .tuple tys ∧
    parse_struct_fields .unit = .unit := by
  refine ⟨congrArg parsed.Struct.struct (named_roundtrip pairs),
    congrArg parsed.Struct.tuple (unnamed_roundtrip tys), rfl⟩

/-- C7 fails on the code as stated: two TypePaths with the same rootedness
and the same segment sequence but different qualified-self components are not
equal under the derived structural equality. -/
theorem C7_counterexample :
    qselfPath.toSyn.path.leading_colon = plainPath.toSyn.path.leading_colon ∧
    qselfPath.toSyn.path.segments = plainPath.toSyn.path.segments ∧
    qselfPath ≠ plainPath := by
  refine ⟨rfl, rfl, ?_⟩
  decide

/-- C7 amended: TypePath equality is structural over all components — two
TypePaths are equal exactly when their qualified-self components, their
rootedness, and their segment sequences all agree — and equal TypePaths have
equal hashes. -/
theorem C7_structural_eq (p q : parsed.TypePath) :
    (p = q ↔ p.toSyn.qself = q.toSyn.qself ∧
       p.toSyn.path.leading_colon = q.toSyn.path.leading_colon ∧
       p.toSyn.path.segments = q.toSyn.path.segments) ∧
    (p = q → parsed.TypePath.hash p = parsed.TypePath.hash q) := by
  constructor
  · constructor
    · rintro rfl
      exact ⟨rfl, rfl, rfl⟩
    · obtain ⟨⟨q1, l1, s1⟩⟩ := p
      obtain ⟨⟨q2, l2, s2⟩⟩ := q
      rintro ⟨h1, h2, h3⟩
      simp only at h1 h2 h3
      subst h1
      subst h2
      subst h3
      rfl
  · rintro rfl
    rfl

/-- Witness for C7 amended: the hash congruence at a concrete path. -/
theorem C7_witness : parsed.TypePath.hash plainPath = parsed.TypePath.hash plainPath :=
  (C7_structural_eq plainPath plainPath).2 rfl

/-- Running-cursor invariant of the per-field loop: starting at `cursor`, the
final cursor exceeds the start by exactly the field sizes plus the emitted
inter-field padding. -/
theorem layoutFieldsAux_sum (fs : List FieldInput) (cursor : Nat) :
    ((layoutFieldsAux cursor fs).2.1.map FieldLayout.size).sum +
      ((layoutFieldsAux cursor fs).2.2.map PaddingSegment.length).sum + cursor =
      (layoutFieldsAux cursor fs).1 := by
  induction fs generalizing cursor with
  | nil => simp [layoutFieldsAux]
  | cons f rest ih =>
    have h := ih (cursor + padBefore cursor f.align + f.size)
    by_cases hp : padBefore cursor f.align = 0
    · simp only [layoutFieldsAux, hp, if_pos, List.nil_append, List.map_cons,
        List.sum_cons, Nat.add_zero] at h ⊢
      omega
    · simp only [layoutFieldsAux, hp, if_neg, List.cons_append, List.nil_append,
        List.map_cons, List.sum_cons, ite_false] at h ⊢
      omega

/-- C8: in every Record layout the field sizes and the padding segment
lengths together account for every byte of the total size. -/
theorem C8_record_size_partition (fields : List FieldInput) :
    ((layoutRecord fields).fields.map FieldLayout.size).sum +
      ((layoutRecord fields).padding.map PaddingSegment.length).sum =
      (layoutRecord fields).size := by
  have h := layoutFieldsAux_sum fields 0
  simp only [layoutRecord, roundUp, List.map_append, List.sum_append]
  by_cases hk :
      (layoutFieldsAux 0 fields).1 <
        (layoutFieldsAux 0 fields).1 +
          padBefore (layoutFieldsAux 0 fields).1
            ((fields.map FieldInput.align).foldl max 1)
  · simp only [if_pos hk, List.map_cons, List.sum_cons, List.map_nil,
      List.sum_nil]
    omega
  · simp only [if_neg hk, List.map_nil, List.sum_nil]
    omega

/-- C9: when parsing and ingestion both succeed, the attribute returns the
token stream it received unchanged. -/
theorem C9_passthrough (parseItem : TokenStream → Except Error Item)
    (ts : TokenStream) (it : Item) (d : Data)
    (hp : parseItem ts = .ok it)
    (hi : Data.add_item Data.new parsed.TypePath.new it = .ok d) :
    pahole parseItem ts = ts := by
  simp [pahole, hp, hi]

/-- Witness for C9 on a concrete token stream and a type alias item. -/
theorem C9_witness :
    pahole (fun _ => .ok (.typeAlias "T" ⟨"u8"⟩)) ["tokens"] = ["tokens"] :=
  C9_passthrough (fun _ => .ok (.typeAlias "T" ⟨"u8"⟩)) ["tokens"]
    (.typeAlias "T" ⟨"u8"⟩)
    ⟨[(builtinPath "T", .typeAlias ⟨"u8"⟩)], Data.new.processed_items⟩ rfl rfl

/-- C10: `is_absolute` hits the assertion (modelled as `none`) exactly on a
path without leading double-colon but with a qualified self, and under the
precondition that a qualified self only occurs with a leading double-colon it
returns the presence of the leading double-colon. -/
theorem C10_is_absolute (p : parsed.TypePath) :
    (p.toSyn.path.leading_colon = false → p.toSyn.qself.isSome →
      parsed.TypePath.is_absolute p = none) ∧
    ((p.toSyn.path.leading_colon = false → p.toSyn.qself = none) →
      parsed.TypePath.is_absolute p = some p.toSyn.path.leading_colon) := by
  constructor
  · intro hl hq
    obtain ⟨x, hx⟩ := Option.isSome_iff_exists.mp hq
    simp [parsed.TypePath.is_absolute, hl, hx]
  · intro h
    cases hlc : p.toSyn.path.leading_colon with
    | false => simp [parsed.TypePath.is_absolute, hlc, h hlc]
    | true => simp [parsed.TypePath.is_absolute, hlc]

/-- Witness for C10: a concrete panicking path and a concrete healthy path. -/
theorem C10_witness :
    parsed.TypePath.is_absolute ⟨⟨some ⟨⟨"T"⟩⟩, ⟨false, []⟩⟩⟩ = none ∧
    parsed.TypePath.is_absolute parsed.TypePath.new = some false :=
  ⟨(C10_is_absolute ⟨⟨some ⟨⟨"T"⟩⟩, ⟨false, []⟩⟩⟩).1 rfl rfl,
   (C10_is_absolute parsed.TypePath.new).2 (fun _ => rfl)⟩

end Pahole
